import Mathlib

/-!
Verification of the model-capability cache and vision-fallback logic of the
n8n GitHub Copilot node package.

Embedded components:
* `DynamicModelsManager` (hashToken, getAvailableModels, getModelFromCache,
  modelSupportsVision) — the per-credential model cache with TTL and
  refresh-cooldown, including the JS 32-bit string hash used for cache keys.
* The `GitHubCopilotOpenAI.execute` request pipeline: default-message
  substitution, content-array validation, vision-content detection,
  OpenAI-to-Copilot model-name mapping, and the vision-fallback resolution.
* The continue-on-fail error handling: message cleaning, 400-detection and
  re-throw, and the OpenAI-style error-item construction.

Timestamps are naturals (milliseconds, as produced by `Date.now()`); the
outbound HTTP fetch is modelled as an oracle argument
`Option (List CopilotModel)` (`none` = the fetch throws), and the process-wide
cache singleton as an explicit association-list state threaded through calls.
-/

/-- JS `ToInt32`: reduce an integer to the range `[-2^31, 2^31)` (two's
complement wrap), as performed by the `&` and `<<` operators in
`DynamicModelsManager.hashToken`. -/
def toInt32 (n : Int) : Int :=
  let m := n % 4294967296
  if m < 2147483648 then m else m - 4294967296

/-- Digit character for `Number.prototype.toString(36)`: 0-9 then a-z. -/
def base36Digit (n : Nat) : Char :=
  if n < 10 then Char.ofNat (48 + n) else Char.ofNat (87 + n)

/-- Fueled digit expansion for `toBase36`; `n` itself is always sufficient
fuel since `n / 36 < n` for `n ≥ 36`. -/
def toBase36Aux : Nat → Nat → List Char
  | 0, n => [base36Digit (n % 36)]
  | fuel + 1, n =>
    if n < 36 then [base36Digit n]
    else toBase36Aux fuel (n / 36) ++ [base36Digit (n % 36)]

/-- `Number.prototype.toString(36)` for naturals. -/
def toBase36 (n : Nat) : List Char := toBase36Aux n n

/-- One iteration of the hash loop in `hashToken`:
`hash = (hash << 5) - hash + char; hash = hash & hash`.
`charCodeAt` is modelled by the code point (exact for BMP characters). -/
def hashStep (h : Int) (c : Char) : Int :=
  toInt32 (toInt32 (h * 32) - h + c.toNat)

/-- `DynamicModelsManager.hashToken`: an invalid or empty token maps to the
sentinel key `models_default`; otherwise the JS 32-bit hash of the token is
rendered as `models_` plus the base-36 absolute value.  The `!token` /
`typeof token !== 'string'` guard collapses to the empty-string test in a
string-typed embedding. -/
def hashToken (token : String) : String :=
  if token.length = 0 then "models_default"
  else "models_" ++ String.mk (toBase36 (token.data.foldl hashStep 0).natAbs)

/-- Fields of `capabilities` that `modelSupportsVision` reads:
`supports_vision` models `capabilities.supports.vision === true`;
`limits_vision` models truthiness of `capabilities.limits.vision`. -/
structure CopilotCapabilities where
  supports_vision : Bool
  limits_vision : Bool
  deriving Repr, DecidableEq

/-- A model descriptor from the provider's model-listing endpoint
(interface `CopilotModel`), restricted to the fields the verified code
reads. -/
structure CopilotModel where
  id : String
  capabilities : Option CopilotCapabilities
  deriving Repr, DecidableEq

/-- Interface `ModelCache`: one cache entry. -/
structure ModelCache where
  models : List CopilotModel
  fetchedAt : Nat
  expiresAt : Nat
  tokenHash : String
  deriving Repr, DecidableEq

/-- The process-wide `Map<string, ModelCache>` singleton, as an association
list. -/
abbrev CacheMap := List (String × ModelCache)

/-- `Map.prototype.get`. -/
def mapGet (m : CacheMap) (k : String) : Option ModelCache :=
  match m with
  | [] => none
  | (k', v) :: rest => if k' = k then some v else mapGet rest k

/-- `Map.prototype.set`. -/
def mapSet (m : CacheMap) (k : String) (v : ModelCache) : CacheMap :=
  match m with
  | [] => [(k, v)]
  | (k', v') :: rest => if k' = k then (k, v) :: rest else (k', v') :: mapSet rest k v

theorem mapGet_mapSet (m : CacheMap) (k : String) (v : ModelCache) :
    mapGet (mapSet m k v) k = some v := by
  induction m with
  | nil => simp [mapGet, mapSet]
  | cons hd tl ih =>
    obtain ⟨k', v'⟩ := hd
    by_cases h : k' = k
    · simp [mapGet, mapSet, h]
    · simp [mapGet, mapSet, h, ih]

/-- `DynamicModelsManager.CACHE_DURATION_MS` (1 hour). -/
def CACHE_DURATION_MS : Nat := 60 * 60 * 1000

/-- `DynamicModelsManager.MIN_REFRESH_INTERVAL_MS` (5 minutes). -/
def MIN_REFRESH_INTERVAL_MS : Nat := 5 * 60 * 1000

instance {ε α : Type} [DecidableEq ε] [DecidableEq α] : DecidableEq (Except ε α)
  | .ok a, .ok b =>
    if h : a = b then .isTrue (by rw [h]) else .isFalse (fun hh => h (Except.ok.inj hh))
  | .ok _, .error _ => .isFalse (fun hh => Except.noConfusion hh)
  | .error _, .ok _ => .isFalse (fun hh => Except.noConfusion hh)
  | .error a, .error b =>
    if h : a = b then .isTrue (by rw [h]) else .isFalse (fun hh => h (Except.error.inj hh))

/-- Observable outcome of one `getAvailableModels` call: the returned value
(or thrown error), the cache state afterwards, and whether an outbound fetch
was attempted during the call. -/
structure ModelsCall where
  result : Except String (List CopilotModel)
  state : CacheMap
  fetchAttempted : Bool
  deriving Repr, DecidableEq

/-- `DynamicModelsManager.getAvailableModels`.  `fetchResult` is the oracle
for `fetchModelsFromAPI` (`none` = the fetch throws).  Branches, in source
order: fresh cache hit (`cached.expiresAt > now`); recent-fetch cooldown
(`now - cached.fetchedAt < MIN_REFRESH_INTERVAL_MS`); fetch, caching the
result on success; on fetch failure return the (expired) cached models when
an entry exists, otherwise rethrow. -/
def getAvailableModels (st : CacheMap) (oauthToken : String) (now : Nat)
    (fetchResult : Option (List CopilotModel)) : ModelsCall :=
  let tokenHash := hashToken oauthToken
  match mapGet st tokenHash with
  | some cached =>
    if now < cached.expiresAt then
      ⟨.ok cached.models, st, false⟩
    else if now - cached.fetchedAt < MIN_REFRESH_INTERVAL_MS then
      ⟨.ok cached.models, st, false⟩
    else
      match fetchResult with
      | some models =>
        ⟨.ok models, mapSet st tokenHash ⟨models, now, now + CACHE_DURATION_MS, tokenHash⟩, true⟩
      | none => ⟨.ok cached.models, st, true⟩
  | none =>
    match fetchResult with
    | some models =>
      ⟨.ok models, mapSet st tokenHash ⟨models, now, now + CACHE_DURATION_MS, tokenHash⟩, true⟩
    | none => ⟨.error "Failed to fetch models", st, true⟩

/-- `DynamicModelsManager.getModelFromCache`: cached entry lookup followed by
`cached.models.find(m => m.id === modelId) || null`.  Reads the cache only —
it takes no fetch oracle and returns no new state. -/
def getModelFromCache (st : CacheMap) (oauthToken : String) (modelId : String) :
    Option CopilotModel :=
  match mapGet st (hashToken oauthToken) with
  | none => none
  | some cached => cached.models.find? (fun m => m.id == modelId)

/-- The vision test `modelSupportsVision` applies to a cached descriptor:
`capabilities.supports.vision === true`, or truthy
`capabilities.limits.vision`. -/
def modelDeclaresVision (m : CopilotModel) : Bool :=
  match m.capabilities with
  | none => false
  | some caps => caps.supports_vision || caps.limits_vision

/-- `DynamicModelsManager.modelSupportsVision`: `none` (JS `null`) when the
model is not in the cache, otherwise the declared vision support.  Answers
from cached data only. -/
def modelSupportsVision (st : CacheMap) (oauthToken : String) (modelId : String) :
    Option Bool :=
  match getModelFromCache st oauthToken modelId with
  | none => none
  | some m => some (modelDeclaresVision m)

/-- One typed content part of a structured (array) message content.
`image_url` models truthiness of the `image_url` field. -/
structure ContentPart where
  type : Option String
  image_url : Bool
  deriving Repr, DecidableEq

/-- Message content: a plain string or a structured array of parts
(`typeof content === 'string'` vs `Array.isArray(content)`).  Object content
is normalized to a JSON string by the node before any use, so it is covered
by the `str` case. -/
inductive MessageContent where
  | str (s : String)
  | parts (ps : List ContentPart)
  deriving Repr, DecidableEq

/-- One chat message as handled by `GitHubCopilotOpenAI.execute`; `type` is
the optional message-level discriminator for legacy file attachments. -/
structure Message where
  role : String
  content : MessageContent
  type : Option String
  deriving Repr, DecidableEq

/-- Does the char list start with the given literal? -/
def leadsWith : List Char → List Char → Bool
  | [], _ => true
  | _ :: _, [] => false
  | p :: ps, c :: cs => p == c && leadsWith ps cs

/-- `String.prototype.startsWith` (structural, unlike the core library
version, so that concrete runs reduce in the kernel). -/
def strHeadIs (s pat : String) : Bool := leadsWith pat.data s.data

/-- `String.prototype.toLowerCase` (structural). -/
def strLower (s : String) : String := String.mk (s.data.map Char.toLower)

/-- The whitespace class of JS `\s` and `String.prototype.trim`, restricted
to the ASCII range (the strings handled here are ASCII). -/
def isJsWhitespace (c : Char) : Bool :=
  c == ' ' || c == '\t' || c == '\n' || c == '\r' || c == '\u000B' || c == '\u000C'

/-- `String.prototype.trim` on char lists. -/
def jsTrim (cs : List Char) : List Char :=
  ((cs.dropWhile isJsWhitespace).reverse.dropWhile isJsWhitespace).reverse

/-- `String.prototype.trim`. -/
def strTrim (s : String) : String := String.mk (jsTrim s.data)

/-- Substring occurrence on char lists. -/
def listContainsSub (pat : List Char) : List Char → Bool
  | [] => leadsWith pat []
  | c :: cs => leadsWith pat (c :: cs) || listContainsSub pat cs

/-- `String.prototype.includes`. -/
def strContains (s pat : String) : Bool := listContainsSub pat.data s.data

/-- Line terminators that `.` in a JS regex does not match. -/
def isLineTerminator (c : Char) : Bool :=
  c == '\n' || c == '\r' || c == ' ' || c == ' '

/-- Helper for the regex `/\[.*image.*\]/i`: given the chars after a `[`
(with `mid` accumulated so far), is there a closing `]` such that the span in
between has no line terminator and contains `image` case-insensitively? -/
def closeScan (mid : List Char) : List Char → Bool
  | [] => false
  | c :: rest =>
    (c == ']' && mid.all (fun x => !isLineTerminator x) &&
      listContainsSub "image".data (mid.map Char.toLower))
    || closeScan (mid ++ [c]) rest

/-- Helper for `/\[.*image.*\]/i`: try each `[` position. -/
def openScan : List Char → Bool
  | [] => false
  | c :: rest => (c == '[' && closeScan [] rest) || openScan rest

/-- `content.match(/\[.*image.*\]/i)` viewed as a Boolean test. -/
def bracketImageMatch (s : String) : Bool := openScan s.data

/-- The per-part test of the vision-content scan:
`part?.type === 'image_url' || part?.type === 'image' || part?.image_url ||
part?.type === 'file'`. -/
def partIsImage (p : ContentPart) : Bool :=
  p.type == some "image_url" || p.type == some "image" || p.image_url ||
    p.type == some "file"

/-- The per-message test of the `hasVisionContent` scan in
`GitHubCopilotOpenAI.execute` (lines 333-359): message-level `type` of
`file`/`image`; for string content an occurrence of `data:image/`, a match of
`/\[.*image.*\]/i`, or a `copilot-file://` head; for array content any image
part. -/
def messageHasVision (m : Message) : Bool :=
  if m.type == some "file" || m.type == some "image" then true
  else
    match m.content with
    | .str s =>
      strContains s "data:image/" || bracketImageMatch s ||
        strHeadIs s "copilot-file://"
    | .parts ps => ps.any partIsImage

/-- The node's vision-content detection over the whole message list
(the loop with early `break` is an any-scan). -/
def hasVisionContent (messages : List Message) : Bool :=
  messages.any messageHasVision

/-- The `modelMapping` table of `GitHubCopilotOpenAI.execute` (lines
319-330), mapping OpenAI model names to GitHub Copilot models. -/
def modelMapping (model : String) : Option String :=
  if model == "gpt-4" then some "gpt-4o"
  else if model == "gpt-4o" then some "gpt-4o"
  else if model == "gpt-4o-mini" then some "gpt-4o-mini"
  else if model == "gpt-4-turbo" then some "gpt-4o"
  else if model == "claude-3-5-sonnet" then some "claude-3.5-sonnet"
  else if model == "claude-3.5-sonnet-20241022" then some "claude-3.5-sonnet"
  else if model == "o1" then some "o1"
  else if model == "o1-preview" then some "o1-preview"
  else if model == "o1-mini" then some "o1-mini"
  else none

/-- `modelMapping[model] || model`; every value in the table is a non-empty
string, so JS falsiness coincides with `Option.getD`. -/
def mapModel (model : String) : String := (modelMapping model).getD model

/-- Vision-fallback configuration read from `advancedOptions`:
`enableVisionFallback` (JS `as boolean || false`), `visionFallbackModel`, and
`visionFallbackCustomModel` (missing strings modelled as `""`). -/
structure VisionFallbackPolicy where
  enableVisionFallback : Bool
  visionFallbackModel : String
  visionFallbackCustomModel : String
  deriving Repr, DecidableEq

/-- The `NodeOperationError`s thrown by the embedded part of `execute`. -/
inductive NodeError where
  | visionUnsupported (model : String)
  | fallbackMissing
  | filePartInContent
  deriving Repr, DecidableEq

/-- An apostrophe character, kept out of string literals. -/
def apos : String := String.mk [Char.ofNat 39]

/-- The human-readable messages of the thrown `NodeOperationError`s (the
`filePartInContent` text models the first sentence of the long format-help
message of lines 179-193). -/
def NodeError.message : NodeError → String
  | .visionUnsupported m =>
    "Model " ++ m ++ " does not support vision/image processing. Enable \"Vision Fallback\" in Advanced Options and select a vision-capable model, or choose a model with vision capabilities."
  | .fallbackMissing =>
    "Vision fallback enabled but no fallback model was selected or provided. " ++
      "Please select a vision-capable model in Advanced Options."
  | .filePartInContent =>
    "GitHub Copilot API Error: File attachments cannot be used inside " ++
      apos ++ "content" ++ apos ++ " array."

/-- The two-tier vision-support decision of `execute` (lines 367-377): the
dynamic API cache first; on `null` the static bundled model table.
`staticVision` models `GitHubCopilotModelsManager.getModelByValue` followed by
`!!(modelInfo?.capabilities?.vision || modelInfo?.capabilities?.multimodal)`;
that static table lives outside the provided sources, so it is kept as an
abstract parameter (Modelled from the spec: the "static fallback capability
table bundled with the system"). -/
def effectiveVisionSupport (st : CacheMap) (oauthToken : String)
    (staticVision : String → Bool) (copilotModel : String) : Bool :=
  match modelSupportsVision st oauthToken copilotModel with
  | some b => b
  | none => staticVision copilotModel

/-- The model-resolution slice of `execute` (lines 319-405): map the
requested model name, and when the messages carry vision content and the
mapped model lacks vision support, either substitute the configured fallback
model (failing when it is empty) or throw `visionUnsupported` naming the
mapped model. -/
def resolveCopilotModel (model : String) (messages : List Message)
    (st : CacheMap) (oauthToken : String) (staticVision : String → Bool)
    (policy : VisionFallbackPolicy) : Except NodeError String :=
  let copilotModel := mapModel model
  if hasVisionContent messages then
    if effectiveVisionSupport st oauthToken staticVision copilotModel then
      .ok copilotModel
    else if policy.enableVisionFallback then
      let fallbackModel :=
        if policy.visionFallbackModel == "__manual__" then
          policy.visionFallbackCustomModel
        else policy.visionFallbackModel
      if strTrim fallbackModel == "" then .error .fallbackMissing
      else .ok fallbackModel
    else .error (.visionUnsupported copilotModel)
  else .ok copilotModel

/-- The message-format validation of `execute` (lines 168-199): a structured
content array may not contain a part with `type: 'file'`. -/
def contentHasFilePart (m : Message) : Bool :=
  match m.content with
  | .str _ => false
  | .parts ps => ps.any (fun p => p.type == some "file")

/-- The default message substituted when no messages were provided
(lines 160-166). -/
def defaultMessage : Message := ⟨"user", .str "Hello! How can you help me?", none⟩

/-- `if (messages.length === 0) messages.push({role:'user', content:...})`. -/
def withDefaultMessage (ms : List Message) : List Message :=
  if ms.isEmpty then [defaultMessage] else ms

/-- The parts of the upstream request body that the verified slice
determines. -/
structure RequestBody where
  model : String
  messages : List Message
  deriving Repr, DecidableEq

/-- The embedded `execute` pipeline for one item, from the parsed message
list to the upstream request body: default-message substitution, then
content-array validation, then model mapping and vision-fallback
resolution. -/
def buildRequest (model : String) (parsed : List Message) (st : CacheMap)
    (oauthToken : String) (staticVision : String → Bool)
    (policy : VisionFallbackPolicy) : Except NodeError RequestBody :=
  let messages := withDefaultMessage parsed
  if messages.any contentHasFilePart then .error .filePartInContent
  else
    match resolveCopilotModel model messages st oauthToken staticVision policy with
    | .ok copilotModel => .ok ⟨copilotModel, messages⟩
    | .error e => .error e

/-- Consume an exact literal at the head of the input, returning the rest. -/
def dropLit : List Char → List Char → Option (List Char)
  | [], cs => some cs
  | _ :: _, [] => none
  | p :: ps, c :: cs => if p == c then dropLit ps cs else none

/-- Case-insensitive `dropLit` (for the `/i` flag). -/
def dropLitFold : List Char → List Char → Option (List Char)
  | [], cs => some cs
  | _ :: _, [] => none
  | p :: ps, c :: cs => if p.toLower == c.toLower then dropLitFold ps cs else none

/-- Skip to and past the next `]`. -/
def skipUntilRBracket : List Char → Option (List Char)
  | [] => none
  | c :: cs => if c == ']' then some cs else skipUntilRBracket cs

/-- Match `/\[Token used: [^\]]+\]/` at the head of the input. -/
def matchTokenUsed (cs : List Char) : Option (List Char) :=
  match dropLit "[Token used: ".data cs with
  | none => none
  | some rest =>
    match rest with
    | [] => none
    | c :: cs2 => if c == ']' then none else skipUntilRBracket cs2

/-- Consume one or more digits (`\d+`). -/
def dropDigits1 : List Char → Option (List Char)
  | [] => none
  | c :: cs => if c.isDigit then some (cs.dropWhile Char.isDigit) else none

/-- Consume one exact character. -/
def expectChar (ch : Char) : List Char → Option (List Char)
  | [] => none
  | c :: cs => if c == ch then some cs else none

/-- Match `/\[Attempt: \d+\/\d+\]/` at the head of the input. -/
def matchAttempt (cs : List Char) : Option (List Char) :=
  (dropLit "[Attempt: ".data cs).bind fun r1 =>
  (dropDigits1 r1).bind fun r2 =>
  (expectChar '/' r2).bind fun r3 =>
  (dropDigits1 r3).bind fun r4 =>
  expectChar ']' r4

/-- Global regex removal (`.replace(re, '')` with the `g` flag): delete every
leftmost non-overlapping match.  Both matchers used here consume at least one
character, so the length of the input is sufficient fuel. -/
def removeAllAux (matcher : List Char → Option (List Char)) :
    Nat → List Char → List Char
  | 0, cs => cs
  | _ + 1, [] => []
  | fuel + 1, c :: cs =>
    match matcher (c :: cs) with
    | some rest => removeAllAux matcher fuel rest
    | none => c :: removeAllAux matcher fuel cs

/-- Entry point for `removeAllAux`. -/
def removeAll (matcher : List Char → Option (List Char)) (cs : List Char) :
    List Char :=
  removeAllAux matcher cs.length cs

/-- `.replace(/^GitHub Copilot API error:\s*/i, '')`. -/
def stripApiErrorHead (cs : List Char) : List Char :=
  match dropLitFold "github copilot api error:".data cs with
  | some rest => rest.dropWhile isJsWhitespace
  | none => cs

/-- Helper for `collapseWs`: the flag records whether the previous character
was whitespace (in which case further whitespace of the same run is
dropped). -/
def collapseWsAux : Bool → List Char → List Char
  | _, [] => []
  | prevWs, c :: cs =>
    if isJsWhitespace c then
      if prevWs then collapseWsAux true cs else ' ' :: collapseWsAux true cs
    else c :: collapseWsAux false cs

/-- `.replace(/\s+/g, ' ')`: collapse every whitespace run to one space. -/
def collapseWs (cs : List Char) : List Char := collapseWsAux false cs

/-- The error-message cleaning of the continue-on-fail handler (lines
617-629): strip `[Token used: ...]`, `[Attempt: x/x]`, the
`GitHub Copilot API error:` head, and collapse whitespace, trimming after
each step. -/
def cleanErrorMessage (errorMessage : String) : String :=
  let s1 := jsTrim (removeAll matchTokenUsed errorMessage.data)
  let s2 := jsTrim (removeAll matchAttempt s1)
  let s3 := jsTrim (stripApiErrorHead s2)
  String.mk (jsTrim (collapseWs s3))

/-- The `error` member of an extracted GitHub Copilot API error object. -/
structure ApiErrorDetail where
  message : Option String
  type : Option String
  param : Option String
  code : Option String
  deriving Repr, DecidableEq

/-- The API error object extracted from the caught error (from
`error.cause.error` or JSON embedded in the message); the extraction itself
is environment-dependent, so the extracted value is taken as an input. -/
structure ApiError where
  error : Option ApiErrorDetail
  deriving Repr, DecidableEq

/-- JS `a || b` for an optional string (empty string is falsy). -/
def strOr (o : Option String) (dflt : String) : String :=
  match o with
  | some s => if s == "" then dflt else s
  | none => dflt

/-- JS `a || null` for an optional string. -/
def strOrNull (o : Option String) : Option String :=
  match o with
  | some s => if s == "" then none else some s
  | none => none

/-- The 400-detection of the handler (lines 655-659):
`lowerMessage.includes('400') || lowerMessage.includes('bad request') ||
(apiError && apiError.error && apiError.error.code === 'invalid_request_body')`. -/
def is400Error (lowerMessage : String) (apiError : Option ApiError) : Bool :=
  strContains lowerMessage "400" || strContains lowerMessage "bad request" ||
    (match apiError with
     | some ae =>
       match ae.error with
       | some d => d.code == some "invalid_request_body"
       | none => false
     | none => false)

/-- What the continue-on-fail handler does with one failed item: rethrow a
node-level operation error, or append an OpenAI-style error object to the
output data. -/
inductive ItemOutcome where
  | rethrown (message : String)
  | errorItem (message : String) (errorType : String) (param : Option String)
      (code : Option String)
  deriving Repr, DecidableEq

/-- The fallback error-classification chain of the handler (lines 684-719),
used when no API error object was extracted. -/
def fallbackErrorFields (cleanMessage lowerMessage : String) : ItemOutcome :=
  if strContains lowerMessage "403" || strContains lowerMessage "forbidden" then
    .errorItem
      (if strContains lowerMessage "access" && strContains lowerMessage "forbidden" then
        "You exceeded your current quota, please check your plan and billing details."
       else cleanMessage)
      "invalid_request_error" none (some "insufficient_quota")
  else if strContains lowerMessage "max" && strContains lowerMessage "token" then
    .errorItem
      ("This model" ++ apos ++
        "s maximum context length is exceeded. Please reduce the length of the messages or completion.")
      "invalid_request_error" (some "max_tokens") (some "context_length_exceeded")
  else if strContains lowerMessage "401" || strContains lowerMessage "unauthorized" then
    .errorItem
      "Incorrect API key provided. You can find your API key at https://platform.openai.com/account/api-keys."
      "invalid_request_error" none (some "invalid_api_key")
  else if strContains lowerMessage "429" || strContains lowerMessage "rate limit" then
    .errorItem "Rate limit reached. Please wait before making more requests."
      "rate_limit_error" none (some "rate_limit_exceeded")
  else if strContains lowerMessage "timeout" then
    .errorItem "Request timeout. Please try again." "api_error" none (some "timeout")
  else
    .errorItem cleanMessage "api_error" none (some "internal_error")

/-- The continue-on-fail item error handler of `execute` (lines 609-743):
clean the message; when a 400 Bad Request is recognized, rethrow a node-level
operation error; otherwise build the OpenAI-style error item, preferring the
extracted API error fields over the message-sniffing fallback chain. -/
def handleItemError (errorMessage : String) (apiError : Option ApiError) :
    ItemOutcome :=
  let cleanMessage := cleanErrorMessage errorMessage
  let lowerMessage := strLower cleanMessage
  if is400Error lowerMessage apiError then
    .rethrown ("Bad Request (400): " ++ cleanMessage)
  else
    match apiError with
    | some ae =>
      match ae.error with
      | some d =>
        .errorItem (strOr d.message cleanMessage)
          (strOr d.type "invalid_request_error") (strOrNull d.param)
          (strOrNull d.code)
      | none => fallbackErrorFields cleanMessage lowerMessage
    | none => fallbackErrorFields cleanMessage lowerMessage

/-- Base64 alphabet (including padding), for the spec-side data-URL test. -/
def isBase64Char (c : Char) : Bool :=
  c.isAlphanum || c == '+' || c == '/' || c == '='

/-- Rest of the input after the first occurrence of a literal. -/
def afterLit (pat : List Char) : List Char → Option (List Char)
  | [] => dropLit pat []
  | c :: cs =>
    match dropLit pat (c :: cs) with
    | some rest => some rest
    | none => afterLit pat cs

/-- Modelled from the spec: "a string payload matching a base64
image-data-URL pattern with at least a minimum payload length threshold
(design default: 50 characters of encoded data)" — an occurrence of
`data:image/` followed by `;base64,` and then at least 50 base64
characters. -/
def specBase64ImageDataUrl (s : String) : Bool :=
  match afterLit "data:image/".data s.data with
  | none => false
  | some r1 =>
    match afterLit ";base64,".data r1 with
    | none => false
    | some r2 => 50 ≤ (r2.takeWhile isBase64Char).length

/-- Modelled from the spec: the per-message clause of `requiresVision`
("a structured image content part, a message-level type discriminator
marking it as file/image, OR a string payload matching a base64
image-data-URL pattern with at least" 50 encoded characters). -/
def specMessageRequiresVision (m : Message) : Bool :=
  (m.type == some "file" || m.type == some "image") ||
    (match m.content with
     | .str s => specBase64ImageDataUrl s
     | .parts ps => ps.any partIsImage)

/-- Modelled from the spec: `requiresVision(messages)`. -/
def specRequiresVision (ms : List Message) : Bool :=
  ms.any specMessageRequiresVision

/-- C1, counterexample.  The claim states that no string payload below the
50-character encoded-data threshold triggers vision detection; the node's
detection fires on any occurrence of `data:image/`, here with only 4
characters of encoded data, where the spec-side `requiresVision` is false. -/
theorem c1_counterexample :
    hasVisionContent [⟨"user", .str "data:image/png;base64,AAAA", none⟩] = true ∧
    specRequiresVision [⟨"user", .str "data:image/png;base64,AAAA", none⟩] = false := by
  exact ⟨by decide, by decide⟩

/-- C1, amended.  The node's vision detection fires on any string content
containing `data:image/` regardless of payload length (besides the bracketed
`image` pattern, the `copilot-file://` head, message-level type
discriminators, and structured image parts); the two concrete examples of the
claim behave as stated: a `data:image/png;base64,` payload of 60 characters
is detected, and a plain-text message containing the word `image` is not. -/
theorem c1_amended :
    (∀ role s, strContains s "data:image/" = true →
       hasVisionContent [⟨role, .str s, none⟩] = true) ∧
    hasVisionContent
      [⟨"user", .str ("data:image/png;base64," ++ String.mk (List.replicate 60 'A')),
        none⟩] = true ∧
    hasVisionContent [⟨"user", .str "this json has the word image in it", none⟩] = false := by
  refine ⟨?_, by decide, by decide⟩
  intro role s h
  simp [hasVisionContent, messageHasVision, h]

/-- C1, witness for the amended theorem at a concrete short payload. -/
theorem c1_witness :
    strContains "xx data:image/gif;base64 yy" "data:image/" = true ∧
    hasVisionContent [⟨"someRole", .str "xx data:image/gif;base64 yy", none⟩] = true := by
  exact ⟨by decide, c1_amended.1 "someRole" "xx data:image/gif;base64 yy" (by decide)⟩

/-- C7, counterexample.  The claim states that when no vision content is
present the model sent upstream equals the model the caller requested; for
the requested model `gpt-4` with a plain-text message the node sends the
mapped model `gpt-4o` upstream. -/
theorem c7_counterexample :
    resolveCopilotModel "gpt-4" [⟨"user", .str "hello", none⟩] [] "tok"
        (fun _ => false) ⟨false, "", ""⟩ = .ok "gpt-4o" ∧
    ("gpt-4o" : String) ≠ "gpt-4" := by
  exact ⟨by decide, by decide⟩

/-- C7, amended.  When the messages require no vision content, or the
requested model (after the fixed OpenAI-to-Copilot name mapping) supports
vision, the resolver returns the mapped model id unchanged; requested ids
outside the mapping table pass through the mapping unchanged. -/
theorem c7_amended (model : String) (messages : List Message) (st : CacheMap)
    (tok : String) (sv : String → Bool) (policy : VisionFallbackPolicy)
    (h : hasVisionContent messages = false ∨
      effectiveVisionSupport st tok sv (mapModel model) = true) :
    resolveCopilotModel model messages st tok sv policy = .ok (mapModel model) := by
  rcases h with h | h <;> simp [resolveCopilotModel, h]

/-- C7, witness: an unmapped model id with a plain-text message resolves to
itself. -/
theorem c7_witness :
    resolveCopilotModel "my-custom-model" [⟨"user", .str "hi", none⟩] [] "tok"
      (fun _ => false) ⟨true, "gpt-4o", ""⟩ = .ok "my-custom-model" := by
  exact c7_amended "my-custom-model" [⟨"user", .str "hi", none⟩] [] "tok"
    (fun _ => false) ⟨true, "gpt-4o", ""⟩ (.inl (by decide))

/-- C10: an item whose parsed message list is empty gets the single default
user message `Hello! How can you help me?` before validation and before the
request body is built, and the message list of any built request body is
never empty. -/
theorem c10_holds (model : String) (st : CacheMap) (tok : String)
    (sv : String → Bool) (policy : VisionFallbackPolicy) :
    buildRequest model [] st tok sv policy = .ok ⟨mapModel model, [defaultMessage]⟩ ∧
    (∀ parsed rb, buildRequest model parsed st tok sv policy = .ok rb →
      rb.messages = withDefaultMessage parsed ∧ rb.messages ≠ []) := by
  constructor
  · have hv : hasVisionContent [defaultMessage] = false := by decide
    have hf : contentHasFilePart defaultMessage = false := by decide
    simp [buildRequest, withDefaultMessage, resolveCopilotModel, hv, hf]
  · intro parsed rb hok
    have hne : withDefaultMessage parsed ≠ [] := by
      by_cases hp : parsed.isEmpty
      · simp [withDefaultMessage, hp]
      · simpa [withDefaultMessage, hp] using
          fun hnil => hp (by simp [hnil, List.isEmpty])
    simp only [buildRequest] at hok
    by_cases hfp : (withDefaultMessage parsed).any contentHasFilePart
    · simp [hfp] at hok
    · simp only [hfp, Bool.false_eq_true, if_false] at hok
      cases hres : resolveCopilotModel model (withDefaultMessage parsed) st tok sv policy with
      | ok m => rw [hres] at hok; cases hok; exact ⟨rfl, hne⟩
      | error e => rw [hres] at hok; cases hok

/-- C10, witness: building a request from an empty parsed list at a concrete
model. -/
theorem c10_witness :
    buildRequest "gpt-4o" [] [] "tok" (fun _ => false) ⟨false, "", ""⟩ =
      .ok ⟨"gpt-4o", [defaultMessage]⟩ := by
  exact (c10_holds "gpt-4o" [] "tok" (fun _ => false) ⟨false, "", ""⟩).1

/-- `modelSupportsVision` is the image of `getModelFromCache` under the
per-descriptor vision test. -/
theorem modelSupportsVision_eq (st : CacheMap) (tok modelId : String) :
    modelSupportsVision st tok modelId =
      (getModelFromCache st tok modelId).map modelDeclaresVision := by
  unfold modelSupportsVision
  cases getModelFromCache st tok modelId <;> rfl

/-- `getModelFromCache` through a known cache entry. -/
theorem getModelFromCache_entry {st : CacheMap} {tok : String} {c : ModelCache}
    (hc : mapGet st (hashToken tok) = some c) (modelId : String) :
    getModelFromCache st tok modelId = c.models.find? (fun m => m.id == modelId) := by
  unfold getModelFromCache
  rw [hc]

/-- C2: `getAvailableModels` raises an error exactly when the outbound fetch
fails and no cache entry (fresh or expired) exists for the credential; when
any entry exists, a fetch failure is absorbed and the previously cached model
sequence is returned without error. -/
theorem c2_holds (st : CacheMap) (tok : String) (now : Nat)
    (fr : Option (List CopilotModel)) :
    ((∃ e, (getAvailableModels st tok now fr).result = .error e) ↔
      fr = none ∧ mapGet st (hashToken tok) = none) ∧
    (∀ c, mapGet st (hashToken tok) = some c → fr = none →
      (getAvailableModels st tok now fr).result = .ok c.models) := by
  cases hc : mapGet st (hashToken tok) with
  | some cached =>
    refine ⟨⟨?_, ?_⟩, ?_⟩
    · rintro ⟨e, he⟩
      exfalso
      by_cases h1 : now < cached.expiresAt <;>
        by_cases h2 : now - cached.fetchedAt < MIN_REFRESH_INTERVAL_MS <;>
        cases fr <;>
        simp [getAvailableModels, hc, h1, h2] at he
    · rintro ⟨_, hnone⟩
      exact Option.noConfusion hnone
    · intro c hcc hfr
      subst hfr
      obtain rfl : cached = c := Option.some.inj hcc
      by_cases h1 : now < cached.expiresAt <;>
        by_cases h2 : now - cached.fetchedAt < MIN_REFRESH_INTERVAL_MS <;>
        simp [getAvailableModels, hc, h1, h2]
  | none =>
    refine ⟨⟨?_, ?_⟩, ?_⟩
    · rintro ⟨e, he⟩
      refine ⟨?_, rfl⟩
      cases fr with
      | some ms => simp [getAvailableModels, hc] at he
      | none => rfl
    · rintro ⟨hfr, _⟩
      subst hfr
      exact ⟨"Failed to fetch models", by simp [getAvailableModels, hc]⟩
    · intro c hcc
      exact Option.noConfusion hcc

/-- C2, witness: a failing fetch with an existing expired entry is absorbed
and the stale models are returned. -/
theorem c2_witness :
    (getAvailableModels
        [(hashToken "tok", ⟨[⟨"m1", none⟩], 0, 3600000, hashToken "tok"⟩)]
        "tok" 7200000 none).result = .ok [⟨"m1", none⟩] := by
  exact (c2_holds [(hashToken "tok", ⟨[⟨"m1", none⟩], 0, 3600000, hashToken "tok"⟩)]
    "tok" 7200000 none).2 ⟨[⟨"m1", none⟩], 0, 3600000, hashToken "tok"⟩ (by decide) rfl

/-- C3: code evaluation at the failing input.  A cache entry fetched at time
0 has expired by time 3600000; a call whose fetch fails leaves the entry
untouched, and a second call one minute later — well inside the 5-minute
minimum refresh interval measured from that failed attempt — attempts a
second outbound fetch, because the cooldown is measured against the entry's
`fetchedAt`, which only a successful fetch updates. -/
theorem c3_two_fetches :
    (getAvailableModels
        [(hashToken "tok", ⟨[⟨"m1", none⟩], 0, 3600000, hashToken "tok"⟩)]
        "tok" 3600000 none).fetchAttempted = true ∧
    (getAvailableModels
        [(hashToken "tok", ⟨[⟨"m1", none⟩], 0, 3600000, hashToken "tok"⟩)]
        "tok" 3600000 none).state =
      [(hashToken "tok", ⟨[⟨"m1", none⟩], 0, 3600000, hashToken "tok"⟩)] ∧
    (getAvailableModels
        (getAvailableModels
          [(hashToken "tok", ⟨[⟨"m1", none⟩], 0, 3600000, hashToken "tok"⟩)]
          "tok" 3600000 none).state
        "tok" 3660000 none).fetchAttempted = true := by
  exact ⟨by decide, by decide, by decide⟩

/-- C4: `modelSupportsVision` answers from cached data only (it receives no
fetch oracle and produces no state change); it is unknown (`none`) exactly
when the credential has no cache entry or the model id is absent from the
cached listing; and after any successful `getAvailableModels` the answer
equals the declared vision support of the first returned descriptor with the
queried id. -/
theorem c4_holds :
    (∀ st tok modelId, modelSupportsVision st tok modelId = none ↔
      ¬ ∃ c m, mapGet st (hashToken tok) = some c ∧ m ∈ c.models ∧ m.id = modelId) ∧
    (∀ st tok now fr ms modelId,
      (getAvailableModels st tok now fr).result = .ok ms →
      modelSupportsVision (getAvailableModels st tok now fr).state tok modelId =
        (ms.find? (fun m => m.id == modelId)).map modelDeclaresVision) := by
  constructor
  · intro st tok modelId
    rw [modelSupportsVision_eq]
    cases hc : mapGet st (hashToken tok) with
    | none =>
      unfold getModelFromCache
      rw [hc]
      simp
    | some cached =>
      rw [getModelFromCache_entry hc]
      cases hf : cached.models.find? (fun m => m.id == modelId) with
      | none =>
        simp only [Option.map_none', eq_self_iff_true, true_iff]
        rintro ⟨c, m, hcc, hm, hid⟩
        obtain rfl : cached = c := Option.some.inj hcc
        exact (List.find?_eq_none.mp hf m hm) (by simp [hid])
      | some m =>
        simp only [Option.map_some']
        constructor
        · intro h; exact Option.noConfusion h
        · intro h
          exfalso
          refine h ⟨cached, m, rfl, List.mem_of_find?_eq_some hf, ?_⟩
          have := List.find?_some hf
          simpa using this
  · intro st tok now fr ms modelId hok
    rw [modelSupportsVision_eq]
    cases hc : mapGet st (hashToken tok) with
    | some cached =>
      by_cases h1 : now < cached.expiresAt
      · have hst : (getAvailableModels st tok now fr).state = st := by
          simp [getAvailableModels, hc, h1]
        have hms : cached.models = ms := by
          have := hok
          simp [getAvailableModels, hc, h1] at this
          exact this
        rw [hst, getModelFromCache_entry hc, hms]
      · by_cases h2 : now - cached.fetchedAt < MIN_REFRESH_INTERVAL_MS
        · have hst : (getAvailableModels st tok now fr).state = st := by
            simp [getAvailableModels, hc, h1, h2]
          have hms : cached.models = ms := by
            have := hok
            simp [getAvailableModels, hc, h1, h2] at this
            exact this
          rw [hst, getModelFromCache_entry hc, hms]
        · cases fr with
          | some fetched =>
            have hst : (getAvailableModels st tok now (some fetched)).state =
                mapSet st (hashToken tok)
                  ⟨fetched, now, now + CACHE_DURATION_MS, hashToken tok⟩ := by
              simp [getAvailableModels, hc, h1, h2]
            have hms : fetched = ms := by
              have := hok
              simp [getAvailableModels, hc, h1, h2] at this
              exact this
            rw [hst, getModelFromCache_entry (mapGet_mapSet st (hashToken tok) _), hms]
          | none =>
            have hst : (getAvailableModels st tok now none).state = st := by
              simp [getAvailableModels, hc, h1, h2]
            have hms : cached.models = ms := by
              have := hok
              simp [getAvailableModels, hc, h1, h2] at this
              exact this
            rw [hst, getModelFromCache_entry hc, hms]
    | none =>
      cases fr with
      | some fetched =>
        have hst : (getAvailableModels st tok now (some fetched)).state =
            mapSet st (hashToken tok)
              ⟨fetched, now, now + CACHE_DURATION_MS, hashToken tok⟩ := by
          simp [getAvailableModels, hc]
        have hms : fetched = ms := by
          have := hok
          simp [getAvailableModels, hc] at this
          exact this
        rw [hst, getModelFromCache_entry (mapGet_mapSet st (hashToken tok) _), hms]
      | none =>
        exfalso
        simp [getAvailableModels, hc] at hok

/-- C4, witness: after a successful fetch of one vision-capable model, the
cached-data lookup answers `some true` for that model id. -/
theorem c4_witness :
    modelSupportsVision
        (getAvailableModels [] "tok" 0 (some [⟨"m1", some ⟨true, false⟩⟩])).state
        "tok" "m1" = some true := by
  have h := c4_holds.2 [] "tok" 0 (some [⟨"m1", some ⟨true, false⟩⟩])
    [⟨"m1", some ⟨true, false⟩⟩] "m1" (by decide)
  rw [h]
  decide

/-- A literal is matched at the head of itself plus anything. -/
theorem leadsWith_append (l b : List Char) : leadsWith l (l ++ b) = true := by
  induction l with
  | nil => rfl
  | cons c cs ih => simp [leadsWith, ih]

/-- A pattern occurs in itself plus a suffix. -/
theorem listContainsSub_here (pat b : List Char) :
    listContainsSub pat (pat ++ b) = true := by
  cases pat with
  | nil => cases b <;> simp [listContainsSub, leadsWith]
  | cons p ps =>
    simp only [listContainsSub, Bool.or_eq_true]
    exact Or.inl (by simpa using leadsWith_append (p :: ps) b)

/-- Occurrence is preserved by consing a character in front. -/
theorem listContainsSub_cons (pat : List Char) (c : Char) (cs : List Char)
    (h : listContainsSub pat cs = true) : listContainsSub pat (c :: cs) = true := by
  cases pat with
  | nil => rfl
  | cons p ps => simp [listContainsSub, h]

/-- Occurrence is preserved by prepending any list. -/
theorem listContainsSub_append_left (pat a b : List Char)
    (h : listContainsSub pat b = true) : listContainsSub pat (a ++ b) = true := by
  induction a with
  | nil => simpa using h
  | cons c cs ih => exact listContainsSub_cons pat c (cs ++ b) ih

/-- A string contains any of its explicit middles. -/
theorem strContains_mid (m head tail : String) :
    strContains (head ++ m ++ tail) m = true := by
  unfold strContains
  have hd : ((head ++ m ++ tail) : String).data = head.data ++ (m.data ++ tail.data) := by
    simp [String.data_append]
  rw [hd]
  exact listContainsSub_append_left m.data head.data (m.data ++ tail.data)
    (listContainsSub_here m.data tail.data)

/-- C5, counterexample.  The claim states that with fallback disabled or the
fallback model id empty the request fails with a `VisionUnsupported` error
naming the requested model; with fallback enabled and an empty fallback id the
node instead throws the fallback-missing configuration error, a different
error whose message does not name the requested model. -/
theorem c5_counterexample :
    resolveCopilotModel "gpt-4o-mini"
        [⟨"user", .str "data:image/png;base64,AAAA", none⟩] [] "tok"
        (fun _ => false) ⟨true, "", ""⟩ = .error .fallbackMissing ∧
    NodeError.fallbackMissing ≠ NodeError.visionUnsupported "gpt-4o-mini" ∧
    strContains (NodeError.message .fallbackMissing) "gpt-4o-mini" = false := by
  exact ⟨by decide, by decide, by decide⟩

/-- C5, amended.  For a request whose messages require vision and whose
mapped model lacks vision support: with fallback disabled the node fails with
`visionUnsupported` naming the mapped requested model in its message; with
fallback enabled and a non-empty resolved fallback id (the custom id when the
`__manual__` marker is used) it returns that fallback id; with fallback
enabled but an empty resolved fallback id it fails with the fallback-missing
configuration error (which does not name the requested model). -/
theorem c5_amended (model : String) (messages : List Message) (st : CacheMap)
    (tok : String) (sv : String → Bool) (policy : VisionFallbackPolicy)
    (hv : hasVisionContent messages = true)
    (hns : effectiveVisionSupport st tok sv (mapModel model) = false) :
    (policy.enableVisionFallback = false →
      resolveCopilotModel model messages st tok sv policy =
        .error (.visionUnsupported (mapModel model)) ∧
      strContains (NodeError.message (.visionUnsupported (mapModel model)))
        (mapModel model) = true) ∧
    (policy.enableVisionFallback = true →
      (strTrim (if policy.visionFallbackModel == "__manual__" then
          policy.visionFallbackCustomModel else policy.visionFallbackModel) ≠ "" →
        resolveCopilotModel model messages st tok sv policy =
          .ok (if policy.visionFallbackModel == "__manual__" then
            policy.visionFallbackCustomModel else policy.visionFallbackModel)) ∧
      (strTrim (if policy.visionFallbackModel == "__manual__" then
          policy.visionFallbackCustomModel else policy.visionFallbackModel) = "" →
        resolveCopilotModel model messages st tok sv policy =
          .error .fallbackMissing)) := by
  refine ⟨fun hpf => ⟨?_, ?_⟩, fun hpt => ⟨fun hne => ?_, fun heq => ?_⟩⟩
  · simp [resolveCopilotModel, hv, hns, hpf]
  · exact strContains_mid (mapModel model) "Model "
      " does not support vision/image processing. Enable \"Vision Fallback\" in Advanced Options and select a vision-capable model, or choose a model with vision capabilities."
  · simp [resolveCopilotModel, hv, hns, hpt]
    simpa using hne
  · simp [resolveCopilotModel, hv, hns, hpt]
    simpa using heq

/-- C5, witness for the amended theorem at the two examples cited by the
claim: with fallback disabled the error names gpt-4o-mini; with fallback
model gpt-4o configured the resolver returns gpt-4o. -/
theorem c5_witness :
    resolveCopilotModel "gpt-4o-mini"
        [⟨"user", .str "data:image/png;base64,AAAA", none⟩] [] "tok"
        (fun _ => false) ⟨false, "", ""⟩ =
      .error (.visionUnsupported "gpt-4o-mini") ∧
    resolveCopilotModel "gpt-4o-mini"
        [⟨"user", .str "data:image/png;base64,AAAA", none⟩] [] "tok"
        (fun _ => false) ⟨true, "gpt-4o", ""⟩ = .ok "gpt-4o" := by
  constructor
  · exact ((c5_amended "gpt-4o-mini"
      [⟨"user", .str "data:image/png;base64,AAAA", none⟩] [] "tok"
      (fun _ => false) ⟨false, "", ""⟩ (by decide) (by decide)).1 rfl).1
  · exact ((c5_amended "gpt-4o-mini"
      [⟨"user", .str "data:image/png;base64,AAAA", none⟩] [] "tok"
      (fun _ => false) ⟨true, "gpt-4o", ""⟩ (by decide) (by decide)).2 rfl).1 (by decide)

/-- C6: whenever a call performed a successful fetch at time `t0`, any second
call within the 1-hour TTL (`t1 < t0 + CACHE_DURATION_MS`) returns the
identical model sequence from the cache, attempts no outbound fetch, and
leaves the cache unchanged — the total fetch count stays 1. -/
theorem c6_holds (st : CacheMap) (tok : String) (t0 t1 : Nat)
    (ms : List CopilotModel) (fr2 : Option (List CopilotModel))
    (hfetch : (getAvailableModels st tok t0 (some ms)).fetchAttempted = true)
    (ht : t1 < t0 + CACHE_DURATION_MS) :
    (getAvailableModels st tok t0 (some ms)).result = .ok ms ∧
    getAvailableModels (getAvailableModels st tok t0 (some ms)).state tok t1 fr2 =
      ⟨.ok ms, (getAvailableModels st tok t0 (some ms)).state, false⟩ := by
  have hget := mapGet_mapSet st (hashToken tok)
    ⟨ms, t0, t0 + CACHE_DURATION_MS, hashToken tok⟩
  cases hc : mapGet st (hashToken tok) with
  | some cached =>
    by_cases h1 : t0 < cached.expiresAt
    · simp [getAvailableModels, hc, h1] at hfetch
    · by_cases h2 : t0 - cached.fetchedAt < MIN_REFRESH_INTERVAL_MS
      · simp [getAvailableModels, hc, h1, h2] at hfetch
      · have hstate : (getAvailableModels st tok t0 (some ms)).state =
            mapSet st (hashToken tok) ⟨ms, t0, t0 + CACHE_DURATION_MS, hashToken tok⟩ := by
          simp [getAvailableModels, hc, h1, h2]
        refine ⟨by simp [getAvailableModels, hc, h1, h2], ?_⟩
        rw [hstate]
        simp [getAvailableModels, hget, ht]
  | none =>
    have hstate : (getAvailableModels st tok t0 (some ms)).state =
        mapSet st (hashToken tok) ⟨ms, t0, t0 + CACHE_DURATION_MS, hashToken tok⟩ := by
      simp [getAvailableModels, hc]
    refine ⟨by simp [getAvailableModels, hc], ?_⟩
    rw [hstate]
    simp [getAvailableModels, hget, ht]

/-- C6, witness: first call fetches at time 0, second call at time 1000
serves the cache with no fetch. -/
theorem c6_witness :
    getAvailableModels (getAvailableModels [] "tok" 0 (some [⟨"m1", none⟩])).state
        "tok" 1000 none =
      ⟨.ok [⟨"m1", none⟩],
        (getAvailableModels [] "tok" 0 (some [⟨"m1", none⟩])).state, false⟩ := by
  exact (c6_holds [] "tok" 0 1000 [⟨"m1", none⟩] none (by decide) (by decide)).2

/-- C8: the credential-to-cache-key hash is total and maps a degenerate
(empty) credential to the fixed sentinel key `models_default`; capability
lookups with such a credential and no sentinel cache entry answer unknown
(`none`) instead of raising; and a failed fetch with such a credential
produces a hard error while leaving the cache unchanged, so no refresh
cooldown is recorded for the attempt. -/
theorem c8_holds :
    hashToken "" = "models_default" ∧
    (∀ st modelId, mapGet st (hashToken "") = none →
      modelSupportsVision st "" modelId = none) ∧
    (∀ st now, mapGet st (hashToken "") = none →
      getAvailableModels st "" now none =
        ⟨.error "Failed to fetch models", st, true⟩) := by
  refine ⟨rfl, ?_, ?_⟩
  · intro st modelId h
    rw [modelSupportsVision_eq]
    unfold getModelFromCache
    rw [h]
    rfl
  · intro st now h
    simp [getAvailableModels, h]

/-- C8, witness at the empty credential and empty cache. -/
theorem c8_witness :
    hashToken "" = "models_default" ∧
    modelSupportsVision [] "" "gpt-4o" = none ∧
    getAvailableModels [] "" 0 none = ⟨.error "Failed to fetch models", [], true⟩ := by
  exact ⟨c8_holds.1, c8_holds.2.1 [] "gpt-4o" rfl, c8_holds.2.2 [] 0 rfl⟩

/-- The fallback classification always yields an output error item, never a
rethrow. -/
theorem fallbackErrorFields_isItem (cm lm : String) :
    ∃ msg t p c, fallbackErrorFields cm lm = .errorItem msg t p c := by
  unfold fallbackErrorFields
  repeat' split
  all_goals exact ⟨_, _, _, _, rfl⟩

/-- C9: under continue-on-fail, an item error recognized as a 400 Bad
Request is rethrown as a node-level operation error (never appended to the
output), every other item error becomes an OpenAI-style
`{error: {message, type, param, code}}` output item, and 400 recognition
holds exactly when the cleaned lowercased message contains `400` or
`bad request`, or the extracted API error code is `invalid_request_body`. -/
theorem c9_holds (errorMessage : String) (apiError : Option ApiError) :
    (is400Error (strLower (cleanErrorMessage errorMessage)) apiError = true →
      handleItemError errorMessage apiError =
        .rethrown ("Bad Request (400): " ++ cleanErrorMessage errorMessage)) ∧
    (is400Error (strLower (cleanErrorMessage errorMessage)) apiError = false →
      ∃ msg t p c, handleItemError errorMessage apiError = .errorItem msg t p c) ∧
    (is400Error (strLower (cleanErrorMessage errorMessage)) apiError = true ↔
      (strContains (strLower (cleanErrorMessage errorMessage)) "400" = true ∨
       strContains (strLower (cleanErrorMessage errorMessage)) "bad request" = true ∨
       ∃ ae d, apiError = some ae ∧ ae.error = some d ∧
         d.code = some "invalid_request_body")) := by
  refine ⟨?_, ?_, ?_⟩
  · intro h
    simp [handleItemError, h]
  · intro h
    simp only [handleItemError, h, Bool.false_eq_true, if_false]
    cases apiError with
    | none => exact fallbackErrorFields_isItem _ _
    | some ae =>
      cases hd : ae.error with
      | none =>
        simp only [hd]
        exact fallbackErrorFields_isItem _ _
      | some d =>
        simp only [hd]
        exact ⟨_, _, _, _, rfl⟩
  · constructor
    · intro h
      simp only [is400Error, Bool.or_eq_true] at h
      rcases h with (h | h) | h
      · exact .inl h
      · exact .inr (.inl h)
      · refine .inr (.inr ?_)
        cases apiError with
        | none => simp at h
        | some ae =>
          have h2 : (match ae.error with
              | some d => d.code == some "invalid_request_body"
              | none => false) = true := h
          cases hd : ae.error with
          | none => rw [hd] at h2; simp at h2
          | some d =>
            rw [hd] at h2
            exact ⟨ae, d, rfl, hd, by simpa using h2⟩
    · intro h
      rcases h with h | h | ⟨ae, d, hae, hd, hc⟩
      · simp [is400Error, h]
      · simp [is400Error, h]
      · subst hae
        simp [is400Error, hd, hc]

/-- C9, witness: a cleaned message containing 400 is rethrown with the
Bad Request wrapper. -/
theorem c9_witness :
    handleItemError "GitHub Copilot API error: 400 Bad Request [Attempt: 1/3]" none =
      .rethrown ("Bad Request (400): " ++
        cleanErrorMessage "GitHub Copilot API error: 400 Bad Request [Attempt: 1/3]") := by
  exact (c9_holds "GitHub Copilot API error: 400 Bad Request [Attempt: 1/3]" none).1
    (by decide)
